import Mathlib

/-!
Shallow embedding of the fast-rec-feed service (Go) and proofs about it.

The embedding covers:
* `FixedStorage.RandomFeed` (internal/storage/fixed.go) — the rejection
  sampling loop over the fallback pool, modelled with an explicit stream of
  random indices and a fuel bound (the Go loop is unbounded; fuel counts
  loop iterations, `none` means the loop has not finished within the bound);
* `Storage.GetNextFeed`, `Storage.SetFeed`, `Storage.GetPercentileExceed`
  (internal/storage/storage.go) — the per-user cursor-paginated store;
* `FeedService.RetrievFeed` (internal/feed/service.go) — the blending layer,
  with the collaborators (feed store result, random source, error recorder)
  abstracted exactly at the Go interface boundary.

Machine integers: item ids (uint32), offsets (uint16) and sizes (uint8) are
modelled as `Nat`; where Go performs wrapping arithmetic on uint8
(`r.Size - uint8(len(persFeed))` in the service) the wrap is made explicit
via `% 256`.  Offsets stored by the code are bounded by `TotalFeedSize = 200`,
so the `uint16` cast in the store never wraps.
-/

def TotalFeedSize : ℕ := 200

/-! ### FixedStorage.RandomFeed (internal/storage/fixed.go)

```go
func (s FixedStorage) RandomFeed(ctx, size uint8, excludeItems []uint32) []uint32 {
    if len(s) == 0 { return nil }
    excluded := make(map[uint32]struct{}, ...)
    for _, item := range excludeItems { excluded[item] = struct{}{} }
    result := make([]uint32, size)
    i := 0
    for i != int(size) && len(excluded) != len(s) {
        idx := rand.Intn(len(s))
        item := s[idx]
        if _, isExcluded := excluded[item]; !isExcluded {
            result[i] = item
            excluded[item] = struct{}{}
            i++
        }
    }
    return result
}
```

The random generator is modelled as a stream `rnd : ℕ → ℕ` of draws, reduced
modulo `len(s)` (every sequence of draws of `rand.Intn` is such a stream).
`excluded` is a `Finset ℕ` (the Go map is used purely as a set, so `len` is
its cardinality).  `result` is the zero-initialised array of length `size`
that the Go code allocates with `make` and returns whole — note that the Go
code returns `result`, not `result[:i]`.  One unit of fuel is one iteration
of the `for` loop; `none` means the loop is still running after that many
iterations.
-/

def randomFeedAux (s : List ℕ) (rnd : ℕ → ℕ) (size : ℕ) :
    ℕ → ℕ → ℕ → Finset ℕ → List ℕ → Option (List ℕ)
  | 0, _, _, _, _ => none
  | fuel + 1, t, i, excluded, result =>
    if i = size ∨ excluded.card = s.length then some result
    else
      let idx := rnd t % s.length
      let item := s.getD idx 0
      if item ∈ excluded then
        randomFeedAux s rnd size fuel (t + 1) i excluded result
      else
        randomFeedAux s rnd size fuel (t + 1) (i + 1) (insert item excluded) (result.set i item)

def randomFeed (s : List ℕ) (rnd : ℕ → ℕ) (size : ℕ) (excludeItems : List ℕ)
    (fuel : ℕ) : Option (List ℕ) :=
  if s.length = 0 then some []
  else randomFeedAux s rnd size fuel 0 0 excludeItems.toFinset (List.replicate size 0)

/-- Helper for C1: on pool `[1]` with `excludeItems = [1, 5]` (the item `5`
is not in the pool), the loop guard `len(excluded) != len(s)` never becomes
false — `excluded` has 2 elements, the pool has 1 — and the single pool item
is excluded, so `i` never advances: the loop never exits, whatever the
random draws. -/
theorem randomFeedAux_stuck (rnd : ℕ → ℕ) (fuel : ℕ) : ∀ t : ℕ,
    randomFeedAux [1] rnd 1 fuel t 0 (List.toFinset [1, 5]) [0] = none := by
  induction fuel with
  | zero => intro t; rfl
  | succ n ih =>
    intro t
    rw [randomFeedAux]
    rw [if_neg (by decide)]
    have hidx : rnd t % List.length [1] = 0 := Nat.mod_one (rnd t)
    simp only [hidx]
    rw [if_pos (by decide)]
    exact ih (t + 1)

/-- C1: the claim states that whenever the eligible set is empty the sampling
loop detects exhaustion and returns, for all inputs including `excludeItems`
that contain items not present in the pool.  The code refutes it: on pool
`[1]` with `excludeItems = [1, 5]` the eligible set is empty, yet for every
random stream and every iteration bound the loop has not returned — the
exhaustion test `len(excluded) != len(s)` compares 2 with 1 forever. -/
theorem C1_randomFeed_no_exhaustion_detection (rnd : ℕ → ℕ) (fuel : ℕ) :
    randomFeed [1] rnd 1 [1, 5] fuel = none := by
  rw [randomFeed, if_neg (by decide)]
  exact randomFeedAux_stuck rnd fuel 0

/-- C2: the claim states that with fewer eligible items than `size` the call
returns exactly the eligible items, hence strictly fewer than `size`
elements.  The code refutes it: on pool `[1, 2]` with no exclusions and
`size = 3` (2 eligible items), the returned slice is the whole preallocated
array `[1, 2, 0]` of length 3, zero-padded — the Go code returns `result`,
never truncating to `result[:i]`. -/
theorem C2_randomFeed_zero_padded :
    randomFeed [1, 2] (fun t => t) 3 [] 10 = some [1, 2, 0] ∧
    (List.filter (fun x => !(List.elem x [])) [1, 2]).length = 2 := by decide

/-- C3: the claim states that no returned element is in `excludeItems` and no
element repeats.  The code refutes both at once: on pool `[1]` with
`excludeItems = [0]` and `size = 3`, the loop exits immediately (the
exhaustion test compares `len(excluded) = 1` with `len(s) = 1`) and the
untouched zero-initialised array `[0, 0, 0]` is returned: `0` is in
`excludeItems` and appears three times. -/
theorem C3_randomFeed_returns_excluded_duplicates :
    randomFeed [1] (fun _ => 0) 3 [0] 1 = some [0, 0, 0] ∧
    (0 : ℕ) ∈ [(0 : ℕ)] ∧ ¬ List.Nodup [0, 0, 0] := by decide

/-! ### Storage (internal/storage/storage.go, the unnamed source file)

```go
type Storage struct {
    feeds     map[uint32][feed.TotalFeedSize]uint32
    offsets   sync.Map
    numExceed atomic.Uint64
}

func (s *Storage) GetNextFeed(ctx, userId uint32, size uint8) ([]uint32, error) {
    offsetVal, _ := s.offsets.Load(userId)
    var offset uint16
    if offsetVal != nil { offset = offsetVal.(uint16) }
    if int(offset) >= feed.TotalFeedSize { return nil, nil }
    lastItem := min(int(offset)+int(size), feed.TotalFeedSize)
    if lastItem >= feed.TotalFeedSize { s.numExceed.Add(1) }
    feed, ok := s.feeds[userId]
    if !ok { return nil, fmt.Errorf("no feed found for user %d", userId) }
    items := feed[offset:lastItem]
    s.offsets.Store(userId, uint16(lastItem))
    return items, nil
}
```

`feeds` is an association list with at most one entry per user (`SetFeed`
removes any previous entry), so `len(feeds)` is its length; `offsets` is a
partial map; `numExceed` a counter.  `GetNextFeed` is split into the
`offsets.Load` step (`loadOffset`) and everything after it
(`getNextFeedFrom`); their composition (`getNextFeed`) is the sequential
semantics of the Go function, and the split lets concurrent interleavings of
the non-atomic Load / Store pair be expressed.  The `uint16(lastItem)` cast
never wraps since `lastItem ≤ TotalFeedSize = 200 < 2^16`.
-/

structure Storage where
  feeds : List (ℕ × List ℕ)
  offsets : ℕ → Option ℕ
  numExceed : ℕ

def emptyStorage : Storage :=
  { feeds := [], offsets := fun _ => none, numExceed := 0 }

def loadOffset (s : Storage) (userId : ℕ) : ℕ :=
  (s.offsets userId).getD 0

def getNextFeedFrom (s : Storage) (userId offset size : ℕ) :
    Storage × Except String (List ℕ) :=
  if TotalFeedSize ≤ offset then (s, Except.ok [])
  else
    let lastItem := min (offset + size) TotalFeedSize
    let s1 := if TotalFeedSize ≤ lastItem then
      { s with numExceed := s.numExceed + 1 } else s
    match s1.feeds.lookup userId with
    | none => (s1, Except.error "no feed found for user")
    | some items =>
      ({ s1 with offsets := fun v => if v = userId then some lastItem else s1.offsets v },
       Except.ok ((items.drop offset).take (lastItem - offset)))

def getNextFeed (s : Storage) (userId size : ℕ) :
    Storage × Except String (List ℕ) :=
  getNextFeedFrom s userId (loadOffset s userId) size

theorem getNextFeed_is_load_then_rest (s : Storage) (userId size : ℕ) :
    getNextFeed s userId size = getNextFeedFrom s userId (loadOffset s userId) size := rfl

def setFeed (s : Storage) (userId : ℕ) (items : List ℕ) : Storage :=
  { feeds := (userId, items) :: s.feeds.filter (fun p => !(p.1 == userId)),
    offsets := fun v => if v = userId then some 0 else s.offsets v,
    numExceed := s.numExceed }

/-- Go `float64` values as they arise in `GetPercentileExceed`: the quotient
is modelled exactly (a rational) except for the IEEE division-by-zero cases,
which Go defines as NaN for `0/0` and `+Inf` for `x/0`, `x > 0`. -/
inductive GoFloat
  | nan
  | inf
  | val (q : ℚ)
deriving DecidableEq

def floatDiv (a b : ℕ) : GoFloat :=
  if b = 0 then (if a = 0 then GoFloat.nan else GoFloat.inf)
  else GoFloat.val ((a : ℚ) / (b : ℚ))

def getPercentileExceed (s : Storage) : ℕ × GoFloat :=
  (s.numExceed, floatDiv s.numExceed s.feeds.length)

/-- The golden feed shape used in concrete instances: items 1..200. -/
def feed200 : List ℕ := List.range' 1 TotalFeedSize

/-- A storage whose user 1 has a stored feed and a cursor already at
`TotalFeedSize` (the state reached after a user has consumed all items). -/
def exhaustedStorage : Storage :=
  { feeds := [(1, feed200)],
    offsets := fun v => if v = 1 then some TotalFeedSize else none,
    numExceed := 0 }

/-- C4, counterexample: for a user whose cursor has reached `TotalFeedSize`,
`GetNextFeed` returns empty with no error, but does NOT increment the exceed
counter — the Go function returns before reaching `numExceed.Add(1)`,
refuting the claim that the counter is incremented by one. -/
theorem C4_counterexample :
    (getNextFeed exhaustedStorage 1 5).2 = Except.ok [] ∧
    (getNextFeed exhaustedStorage 1 5).1.numExceed ≠ exhaustedStorage.numExceed + 1 :=
  ⟨rfl, by decide⟩

/-- C4, amended: when the cursor has already reached `TotalFeedSize`,
`GetNextFeed` returns an empty sequence with no error and leaves the whole
storage — in particular `numExceed` and the cursor — unchanged. -/
theorem C4_exhausted_returns_empty (s : Storage) (userId size : ℕ)
    (h : TotalFeedSize ≤ loadOffset s userId) :
    getNextFeed s userId size = (s, Except.ok []) := by
  rw [getNextFeed, getNextFeedFrom, if_pos h]

theorem C4_exhausted_returns_empty_witness :
    TotalFeedSize ≤ loadOffset exhaustedStorage 1 ∧
    getNextFeed exhaustedStorage 1 5 = (exhaustedStorage, Except.ok []) :=
  ⟨by decide, C4_exhausted_returns_empty exhaustedStorage 1 5 (by decide)⟩

/-- C5: for a user with a stored feed and cursor `off < TotalFeedSize`,
`GetNextFeed` returns exactly `items[off : min(off+size, TotalFeedSize)]`,
stores the cursor at that upper bound, and increments the exceed counter
exactly when the upper bound equals `TotalFeedSize`. -/
theorem C5_getNextFeed_slice (s : Storage) (userId size off : ℕ) (items : List ℕ)
    (ho : s.offsets userId = some off) (hlt : off < TotalFeedSize)
    (hf : s.feeds.lookup userId = some items) :
    (getNextFeed s userId size).2 =
      Except.ok ((items.drop off).take (min (off + size) TotalFeedSize - off)) ∧
    (getNextFeed s userId size).1.offsets userId = some (min (off + size) TotalFeedSize) ∧
    (getNextFeed s userId size).1.numExceed =
      s.numExceed + (if min (off + size) TotalFeedSize = TotalFeedSize then 1 else 0) := by
  have hload : loadOffset s userId = off := by simp [loadOffset, ho]
  rw [getNextFeed, hload, getNextFeedFrom, if_neg (not_le.mpr hlt)]
  by_cases hc : TotalFeedSize ≤ off + size
  · have heq : min (off + size) TotalFeedSize = TotalFeedSize := min_eq_right hc
    simp only [heq]
    simp [hf]
  · have hle : off + size ≤ TotalFeedSize := le_of_lt (not_le.mp hc)
    have heq : min (off + size) TotalFeedSize = off + size := min_eq_left hle
    have hne : off + size ≠ TotalFeedSize := by omega
    simp only [heq]
    simp [hf, hc, hne]

theorem C5_getNextFeed_slice_witness :
    ((setFeed emptyStorage 1 feed200).offsets 1 = some 0 ∧ 0 < TotalFeedSize ∧
      (setFeed emptyStorage 1 feed200).feeds.lookup 1 = some feed200) ∧
    ((getNextFeed (setFeed emptyStorage 1 feed200) 1 10).2 =
        Except.ok ((feed200.drop 0).take (min (0 + 10) TotalFeedSize - 0)) ∧
      (getNextFeed (setFeed emptyStorage 1 feed200) 1 10).1.offsets 1 =
        some (min (0 + 10) TotalFeedSize) ∧
      (getNextFeed (setFeed emptyStorage 1 feed200) 1 10).1.numExceed =
        (setFeed emptyStorage 1 feed200).numExceed +
          (if min (0 + 10) TotalFeedSize = TotalFeedSize then 1 else 0)) :=
  ⟨⟨rfl, by decide, rfl⟩,
    C5_getNextFeed_slice (setFeed emptyStorage 1 feed200) 1 10 0 feed200 rfl (by decide) rfl⟩

/-- C10: when `GetNextFeed` fails because the user has no stored feed (and
the cursor is below `TotalFeedSize`, so the early return is not taken), the
cursor map is left untouched, yet the exceed counter is still incremented
whenever `offset + size` reaches `TotalFeedSize` — the Go code increments
`numExceed` before the feed-existence check. -/
theorem C10_error_path_counter (s : Storage) (userId size : ℕ)
    (hf : s.feeds.lookup userId = none) (ho : loadOffset s userId < TotalFeedSize) :
    (getNextFeed s userId size).2 = Except.error "no feed found for user" ∧
    (getNextFeed s userId size).1.offsets = s.offsets ∧
    (getNextFeed s userId size).1.numExceed =
      s.numExceed + (if TotalFeedSize ≤ loadOffset s userId + size then 1 else 0) := by
  rw [getNextFeed, getNextFeedFrom, if_neg (not_le.mpr ho)]
  by_cases hc : TotalFeedSize ≤ loadOffset s userId + size
  · have heq : min (loadOffset s userId + size) TotalFeedSize = TotalFeedSize :=
      min_eq_right hc
    simp only [heq]
    simp [hf, hc]
  · have hle : loadOffset s userId + size ≤ TotalFeedSize := le_of_lt (not_le.mp hc)
    have heq : min (loadOffset s userId + size) TotalFeedSize =
        loadOffset s userId + size := min_eq_left hle
    simp only [heq]
    simp [hf, hc]

theorem C10_error_path_counter_witness :
    (emptyStorage.feeds.lookup 1 = none ∧ loadOffset emptyStorage 1 < TotalFeedSize) ∧
    ((getNextFeed emptyStorage 1 200).2 = Except.error "no feed found for user" ∧
      (getNextFeed emptyStorage 1 200).1.offsets = emptyStorage.offsets ∧
      (getNextFeed emptyStorage 1 200).1.numExceed =
        emptyStorage.numExceed +
          (if TotalFeedSize ≤ loadOffset emptyStorage 1 + 200 then 1 else 0)) :=
  ⟨⟨rfl, by decide⟩, C10_error_path_counter emptyStorage 1 200 rfl (by decide)⟩

/-! ### Sequential pagination (claim C6)

`runNextFeeds` threads the storage through a list of successive
`GetNextFeed` calls (one caller at a time) and collects the returned slices
in call order; an error contributes an empty slice. -/

def okOrNil (r : Except String (List ℕ)) : List ℕ :=
  match r with
  | Except.ok l => l
  | Except.error _ => []

def runNextFeeds (userId : ℕ) : Storage → List ℕ → Storage × List (List ℕ)
  | s, [] => (s, [])
  | s, size :: rest =>
    let step := getNextFeed s userId size
    let next := runNextFeeds userId step.1 rest
    (next.1, okOrNil step.2 :: next.2)

/-- One in-bounds `GetNextFeed` call, fully characterised: the slice
`items[off : off+sz]` is returned, the cursor moves to `off + sz`, the feeds
are untouched. -/
theorem getNextFeed_step (s : Storage) (userId sz off : ℕ) (items : List ℕ)
    (ho : s.offsets userId = some off) (hf : s.feeds.lookup userId = some items)
    (hle : off + sz ≤ TotalFeedSize) (hlt : off < TotalFeedSize) :
    getNextFeed s userId sz =
      ({ feeds := s.feeds,
         offsets := fun v => if v = userId then some (off + sz) else s.offsets v,
         numExceed := if TotalFeedSize ≤ off + sz then s.numExceed + 1 else s.numExceed },
       Except.ok ((items.drop off).take sz)) := by
  have hload : loadOffset s userId = off := by simp [loadOffset, ho]
  rw [getNextFeed, hload, getNextFeedFrom, if_neg (not_le.mpr hlt)]
  have heq : min (off + sz) TotalFeedSize = off + sz := min_eq_left hle
  simp only [heq, Nat.add_sub_cancel_left]
  by_cases hc : TotalFeedSize ≤ off + sz
  · simp [hf, hc]
  · simp [hf, hc]

theorem runNextFeeds_drop (userId : ℕ) (items : List ℕ)
    (hlen : items.length = TotalFeedSize) :
    ∀ (sizes : List ℕ) (s : Storage) (off : ℕ),
      s.feeds.lookup userId = some items → s.offsets userId = some off →
      off + sizes.sum = TotalFeedSize →
      ((runNextFeeds userId s sizes).2).flatten = items.drop off := by
  intro sizes
  induction sizes with
  | nil =>
    intro s off hf ho hsum
    simp at hsum
    have hnil : items.drop off = [] := List.drop_eq_nil_of_le (by omega)
    rw [runNextFeeds, hnil]
    rfl
  | cons sz rest ih =>
    intro s off hf ho hsum
    simp at hsum
    rw [runNextFeeds]
    by_cases hoff : off < TotalFeedSize
    · have hle : off + sz ≤ TotalFeedSize := by omega
      rw [getNextFeed_step s userId sz off items ho hf hle hoff]
      have ih2 := ih
        { feeds := s.feeds,
          offsets := fun v => if v = userId then some (off + sz) else s.offsets v,
          numExceed := if TotalFeedSize ≤ off + sz then s.numExceed + 1 else s.numExceed }
        (off + sz) hf (by simp) (by omega)
      simp only [okOrNil]
      rw [List.flatten_cons, ih2, ← List.drop_drop sz off items]
      exact List.take_append_drop sz (items.drop off)
    · have hzero : sz = 0 := by omega
      have hpast : getNextFeed s userId sz = (s, Except.ok []) := by
        rw [getNextFeed, getNextFeedFrom,
          if_pos (by simp [loadOffset, ho]; omega)]
      rw [hpast]
      simp only [okOrNil]
      have ih2 := ih s off hf ho (by omega)
      rw [List.flatten_cons, ih2]
      rfl

/-- C6: for a user with a stored feed of length `TotalFeedSize` and cursor
at 0, any sequence of successive `GetNextFeed` calls whose sizes sum to
`TotalFeedSize` returns slices whose concatenation, in call order, is
exactly the stored feed — nothing repeated, nothing skipped. -/
theorem C6_sequential_partition (s : Storage) (userId : ℕ) (items sizes : List ℕ)
    (hf : s.feeds.lookup userId = some items) (hlen : items.length = TotalFeedSize)
    (ho : s.offsets userId = some 0) (hsum : sizes.sum = TotalFeedSize) :
    ((runNextFeeds userId s sizes).2).flatten = items := by
  have h := runNextFeeds_drop userId items hlen sizes s 0 hf ho (by omega)
  simpa using h

set_option maxRecDepth 4000 in
theorem C6_sequential_partition_witness :
    ((setFeed emptyStorage 1 feed200).feeds.lookup 1 = some feed200 ∧
      feed200.length = TotalFeedSize ∧
      (setFeed emptyStorage 1 feed200).offsets 1 = some 0 ∧
      List.sum [10, 190] = TotalFeedSize) ∧
    ((runNextFeeds 1 (setFeed emptyStorage 1 feed200) [10, 190]).2).flatten = feed200 :=
  ⟨⟨rfl, by decide, rfl, by decide⟩,
    C6_sequential_partition (setFeed emptyStorage 1 feed200) 1 feed200 [10, 190]
      rfl (by decide) rfl (by decide)⟩

/-! ### Concurrent cursor access (claim C7)

In Go, `GetNextFeed` reads the cursor with `s.offsets.Load(userId)` and
writes it back with `s.offsets.Store(userId, ...)`: two separate operations
on the `sync.Map`, with no fetch-and-update combining them.  A concurrent
execution of two calls may therefore schedule both `Load`s before either
`Store`.  `twoNextFeedsRace` is exactly that interleaving, built from the
same two phases whose composition is the sequential `getNextFeed`
(`getNextFeed_is_load_then_rest`): both calls load the offset from the
initial state, then each completes in turn. -/

def twoNextFeedsRace (s : Storage) (userId sz1 sz2 : ℕ) :
    Storage × List ℕ × List ℕ :=
  let off1 := loadOffset s userId
  let off2 := loadOffset s userId
  let r1 := getNextFeedFrom s userId off1 sz1
  let r2 := getNextFeedFrom r1.1 userId off2 sz2
  (r2.1, okOrNil r1.2, okOrNil r2.2)

/-- C7: the claim states that two concurrent `nextFeed` calls for one user
never both read the same starting offset and never lose an update.  The
code refutes it: the Load / Store pair is not atomic, and under the
interleaving `Load₁ Load₂ Rest₁ Rest₂` on a fresh feed both calls of size 2
read offset 0, both return the same two items `[1, 2]`, and the final
cursor is 2 — not the starting offset plus the sum of the returned lengths
(4). -/
theorem C7_cursor_race_lost_update :
    loadOffset (setFeed emptyStorage 1 feed200) 1 = 0 ∧
    (twoNextFeedsRace (setFeed emptyStorage 1 feed200) 1 2 2).2.1 = [1, 2] ∧
    (twoNextFeedsRace (setFeed emptyStorage 1 feed200) 1 2 2).2.2 = [1, 2] ∧
    (twoNextFeedsRace (setFeed emptyStorage 1 feed200) 1 2 2).1.offsets 1 = some 2 ∧
    (twoNextFeedsRace (setFeed emptyStorage 1 feed200) 1 2 2).1.offsets 1 ≠
      some (loadOffset (setFeed emptyStorage 1 feed200) 1 +
        ((twoNextFeedsRace (setFeed emptyStorage 1 feed200) 1 2 2).2.1.length +
         (twoNextFeedsRace (setFeed emptyStorage 1 feed200) 1 2 2).2.2.length)) := by
  refine ⟨rfl, rfl, rfl, rfl, ?_⟩
  decide

/-- C9, counterexample: with no stored feeds `GetPercentileExceed` computes
`float64(0) / float64(0)`, which is NaN, not the fraction 0 the claim
states. -/
theorem C9_counterexample :
    getPercentileExceed emptyStorage = (0, GoFloat.nan) ∧
    GoFloat.nan ≠ GoFloat.val 0 :=
  ⟨rfl, by decide⟩

/-- C9, amended: `GetPercentileExceed` returns the exceed count together
with the count divided by the number of users with a stored feed; when no
user has a stored feed the division is the IEEE divide-by-zero result — NaN
for a zero count, +Inf otherwise — never the fraction 0. -/
theorem C9_percentile (s : Storage) :
    (getPercentileExceed s).1 = s.numExceed ∧
    (s.feeds.length ≠ 0 →
      (getPercentileExceed s).2 =
        GoFloat.val ((s.numExceed : ℚ) / (s.feeds.length : ℚ))) ∧
    (s.feeds.length = 0 →
      (getPercentileExceed s).2 =
        (if s.numExceed = 0 then GoFloat.nan else GoFloat.inf) ∧
      (getPercentileExceed s).2 ≠ GoFloat.val 0) := by
  refine ⟨rfl, ?_, ?_⟩
  · intro h
    simp [getPercentileExceed, floatDiv, h]
  · intro h
    refine ⟨by simp [getPercentileExceed, floatDiv, h], ?_⟩
    by_cases hn : s.numExceed = 0 <;>
      simp [getPercentileExceed, floatDiv, h, hn]

theorem C9_percentile_witness :
    emptyStorage.feeds.length = 0 ∧
    ((getPercentileExceed emptyStorage).2 =
      (if emptyStorage.numExceed = 0 then GoFloat.nan else GoFloat.inf) ∧
     (getPercentileExceed emptyStorage).2 ≠ GoFloat.val 0) :=
  ⟨rfl, (C9_percentile emptyStorage).2.2 rfl⟩

/-! ### FeedService.RetrievFeed (internal/feed/service.go)

```go
func (f *FeedService) RetrievFeed(ctx, r FeedRequest) ([]uint32, error) {
    if r.Size == 0 { r.Size = defailtNextFeedSize }
    var randomFeedSize uint8
    persFeed, err := f.feedStorage.GetNextFeed(ctx, r.UserId, r.Size)
    if err != nil { f.errRecorder.FeedError(ctx, r.UserId, err) }
    randomFeedSize = r.Size - uint8(len(persFeed))
    if randomFeedSize > 0 {
        randomFeed := f.randomFeedStorage.GetRandomFeed(ctx, randomFeedSize, persFeed)
        persFeed = append(persFeed, randomFeed...)
    }
    if len(persFeed) != int(r.Size) {
        f.errRecorder.FeedError(ctx, r.UserId, fmt.Errorf("feed size is not equal to requested size"))
        ... // log
        if len(persFeed) == 0 { return nil, fmt.Errorf("no feed items") }
    }
    return persFeed, nil
}
```

The collaborators are abstracted at the Go interfaces: `nextRes` is the
slice-and-error pair the `feedStorage.GetNextFeed` call produced (the
service uses the slice regardless of the error), `rand` is
`randomFeedStorage.GetRandomFeed` as a function of the requested size and
the exclusion slice, and the error recorder is modelled by counting its
invocations (the second component of the result).  `r.Size` is a uint8, so
the input is reduced by `u8`; the subtraction `r.Size - uint8(len(persFeed))`
is Go wrapping uint8 arithmetic, `u8sub`.  The returned `Option` is `none`
exactly when the Go function returns the "no feed items" error. -/

def u8 (n : ℕ) : ℕ := n % 256

def u8sub (a b : ℕ) : ℕ := (u8 a + 256 - u8 b) % 256

def defailtNextFeedSize : ℕ := 10

def effSize (size : ℕ) : ℕ := if size = 0 then defailtNextFeedSize else size

def blendedFeed (persFeed : List ℕ) (rand : ℕ → List ℕ → List ℕ) (size : ℕ) :
    List ℕ :=
  let randomFeedSize := u8sub size persFeed.length
  if 0 < randomFeedSize then persFeed ++ rand randomFeedSize persFeed else persFeed

def retrievFeed (nextRes : List ℕ × Bool) (rand : ℕ → List ℕ → List ℕ)
    (size0 : ℕ) : Option (List ℕ) × ℕ :=
  let size := effSize (u8 size0)
  let errs1 : ℕ := if nextRes.2 then 1 else 0
  let feed2 := blendedFeed nextRes.1 rand size
  if feed2.length ≠ size then
    (if feed2.length = 0 then none else some feed2, errs1 + 1)
  else (some feed2, errs1)

theorem effSize_pos (n : ℕ) : 0 < effSize n := by
  unfold effSize defailtNextFeedSize
  split <;> omega

/-- C8: `RetrievFeed` fails exactly when the combined primary-plus-fallback
sequence is empty; a failing `GetNextFeed` only adds one recorded anomaly
and never changes the returned feed (the service degrades instead of
aborting); and a nonempty combined sequence shorter than the requested size
is still returned, with one size-mismatch anomaly recorded on top of the
per-call error count. -/
theorem C8_retrievFeed_degradation (nextSlice : List ℕ) (errFlag : Bool)
    (rand : ℕ → List ℕ → List ℕ) (size0 : ℕ) :
    ((retrievFeed (nextSlice, errFlag) rand size0).1 = none ↔
      blendedFeed nextSlice rand (effSize (u8 size0)) = []) ∧
    ((retrievFeed (nextSlice, true) rand size0).1 =
       (retrievFeed (nextSlice, false) rand size0).1 ∧
     (retrievFeed (nextSlice, true) rand size0).2 =
       (retrievFeed (nextSlice, false) rand size0).2 + 1) ∧
    (blendedFeed nextSlice rand (effSize (u8 size0)) ≠ [] →
      (retrievFeed (nextSlice, errFlag) rand size0).1 =
        some (blendedFeed nextSlice rand (effSize (u8 size0)))) ∧
    ((blendedFeed nextSlice rand (effSize (u8 size0))).length ≠ effSize (u8 size0) →
      (retrievFeed (nextSlice, errFlag) rand size0).2 =
        (if errFlag then 1 else 0) + 1) := by
  have hpos := effSize_pos (u8 size0)
  by_cases hl : (blendedFeed nextSlice rand (effSize (u8 size0))).length =
      effSize (u8 size0)
  · have hne : blendedFeed nextSlice rand (effSize (u8 size0)) ≠ [] := by
      intro h
      rw [h] at hl
      simp at hl
      omega
    refine ⟨?_, ⟨?_, ?_⟩, ?_, ?_⟩ <;> simp [retrievFeed, hl, hne]
  · by_cases h0 : blendedFeed nextSlice rand (effSize (u8 size0)) = []
    · have hz : ¬ (0 = effSize (u8 size0)) := by omega
      refine ⟨?_, ⟨?_, ?_⟩, ?_, ?_⟩ <;> simp [retrievFeed, hl, h0, hz]
    · refine ⟨?_, ⟨?_, ?_⟩, ?_, ?_⟩ <;> simp [retrievFeed, hl, h0]

/-- A concrete run of the degraded path: the feed store failed (`NotFound`
style) with an empty primary slice, the fallback produced 3 of the 5
requested items, and the service returns the short sequence with two
recorded anomalies, applying `C8_retrievFeed_degradation` at that input. -/
theorem C8_retrievFeed_degradation_witness :
    blendedFeed [] (fun _ _ => [7, 8, 9]) (effSize (u8 5)) ≠ [] ∧
    (retrievFeed ([], true) (fun _ _ => [7, 8, 9]) 5).1 =
      some (blendedFeed [] (fun _ _ => [7, 8, 9]) (effSize (u8 5))) :=
  ⟨by decide, (C8_retrievFeed_degradation [] true (fun _ _ => [7, 8, 9]) 5).2.2.1 (by decide)⟩
